import Mathlib

/-!
Shallow embedding of the Pallets ledger service (`models.py`,
`services/ledger_service.py`).

The relational store is modelled as lists of rows inside a `DB` value;
session adds and commits are applied directly to that value (uncommitted
rows pending in the SQLAlchemy session are visible to later queries of the
same session via autoflush, so a single state models what a caller of the
service observes).  Machine integers are `Int` (Python integers are
unbounded).  Datetime, uuid and monetary columns play no role in the claims
and are omitted from the row structures.  `Char.toUpper`/`Char.toLower`
model Python `str.upper`/`str.lower` on the ASCII location codes and column
names the service handles.
-/

def pyUpper (s : String) : String := String.mk (s.data.map Char.toUpper)

def pyLower (s : String) : String := String.mk (s.data.map Char.toLower)

/-- Python `str.strip()` (whitespace trimming on both sides). -/
def pyStrip (s : String) : String :=
  String.mk (((s.data.dropWhile Char.isWhitespace).reverse.dropWhile Char.isWhitespace).reverse)

/-- Row of the `locations` table (`models.Location`). -/
structure LocationRow where
  code : String
  name : String
  location_type : String
  max_capacity : Int
  operational_status : String
  current_stock : Int
  deriving DecidableEq

/-- Row of the `inventory_balances` table (`models.InventoryBalance`). -/
structure BalanceRow where
  location_code : String
  quantity : Int
  quantity_allocated : Int
  quantity_available : Int
  deriving DecidableEq

/-- Row of the `pallet_movements` table (`models.PalletMovement`). -/
structure MovementRow where
  id : Nat
  from_location_code : String
  to_location_code : String
  quantity : Int
  mission_id : String
  movement_type : String
  priority : String
  status : String
  notes : Option String
  confirmed_by : String
  deriving DecidableEq

/-- Row of the `ledger_audit_logs` table (`models.LedgerAuditLog`). -/
structure AuditRow where
  movement_id : Option Nat
  debit_location_code : Option String
  credit_location_code : Option String
  quantity : Int
  debit_balance_before : Option Int
  debit_balance_after : Option Int
  credit_balance_before : Option Int
  credit_balance_after : Option Int
  user_id : String
  action : String
  table_name : String
  deriving DecidableEq

/-- Row of the `reconciliation_reports` table (`models.ReconciliationReport`).
`completed` models whether `completed_at` has been stamped. -/
structure ReportRow where
  id : Nat
  report_name : String
  source_filename : String
  file_hash : String
  total_movements : Nat
  successful_movements : Nat
  failed_movements : Nat
  status : String
  processing_errors : Option String
  processed_by : String
  completed : Bool
  deriving DecidableEq

/-- The observable database state.  `nextMovementId` / `nextReportId` model
the autoincrement primary-key sequences that `flush` draws from. -/
structure DB where
  locations : List LocationRow
  balances : List BalanceRow
  movements : List MovementRow
  audits : List AuditRow
  reports : List ReportRow
  nextMovementId : Nat
  nextReportId : Nat
  deriving DecidableEq

/-- Result of a service call returning `Tuple[bool, str]` plus the state it
leaves behind. -/
structure MoveResult where
  ok : Bool
  msg : String
  st : DB
  deriving DecidableEq

/-- Update the first row whose key matches `c` (the row an ORM `.first()`
query returns and the service then mutates in place). -/
def updFirst {α : Type} (key : α → String) : List α → String → (α → α) → List α
  | [], _, _ => []
  | x :: xs, c, f => if key x == c then f x :: xs else x :: updFirst key xs c f

/-- `InventoryBalance.update_available_quantity`. -/
def recomputeAvail (b : BalanceRow) : BalanceRow :=
  { b with quantity_available := max 0 (b.quantity - b.quantity_allocated) }

def mkZeroBal (c : String) : BalanceRow :=
  { location_code := c, quantity := 0, quantity_allocated := 0, quantity_available := 0 }

/-- Arguments of `LedgerService.record_movement` (datetime/reference-id
defaults omitted). -/
structure MoveArgs where
  mission_id : String
  from_location_code : String
  to_location_code : String
  quantity : Int
  movement_type : String
  priority : String
  notes : Option String
  confirmed_by : String
  deriving DecidableEq

/-- The AUTO-FIX block of `record_movement` for one code: if the code is
SYSTEM and no SYSTEM location exists, insert the SYSTEM location and its
zero balance and commit. -/
def provisionSystemOnce (st : DB) (code : String) : DB :=
  if pyUpper code == ("SYSTEM") then
    match st.locations.find? (fun l => l.code == ("SYSTEM")) with
    | some _ => st
    | none =>
        { st with
          locations := st.locations ++
            [{ code := ("SYSTEM"), name := ("System Adjustment Account"),
               location_type := ("Virtual"), max_capacity := 999999,
               operational_status := ("active"), current_stock := 0 }],
          balances := st.balances ++ [mkZeroBal ("SYSTEM")] }
  else st

/-- The AUTO-FIX loop over `[from_location_code, to_location_code]`. -/
def postProvision (st : DB) (a : MoveArgs) : DB :=
  provisionSystemOnce (provisionSystemOnce st a.from_location_code) a.to_location_code

/-- The movement row inserted by step 4 of `record_movement`. -/
def mkMovement (id : Nat) (a : MoveArgs) : MovementRow :=
  { id := id,
    from_location_code := pyUpper a.from_location_code,
    to_location_code := pyUpper a.to_location_code,
    quantity := a.quantity,
    mission_id := a.mission_id,
    movement_type := a.movement_type,
    priority := a.priority,
    status := ("completed"),
    notes := a.notes,
    confirmed_by := a.confirmed_by }

/-- The audit row inserted by step 7 of `record_movement`; `sb` and `db` are
the source and destination balance rows as read before the mutation. -/
def mkAudit (id : Nat) (a : MoveArgs) (sb db : BalanceRow) : AuditRow :=
  { movement_id := some id,
    debit_location_code := some (pyUpper a.from_location_code),
    credit_location_code := some (pyUpper a.to_location_code),
    quantity := a.quantity,
    debit_balance_before := some sb.quantity,
    debit_balance_after := some (sb.quantity - a.quantity),
    credit_balance_before := some db.quantity,
    credit_balance_after := some (db.quantity + a.quantity),
    user_id := a.confirmed_by,
    action := ("MOVEMENT"),
    table_name := ("movements") }

/-- Steps 4-7 of `record_movement` (the atomic try-block: movement insert,
both balance updates, both `current_stock` cache writes, audit insert,
commit).  The cache writes are guarded by the existence of the Location row,
mirroring `if source_balance.location:` / `if dest_balance.location:`. -/
def applyAtomic (st2 : DB) (a : MoveArgs) (sb db : BalanceRow) : MoveResult :=
  { ok := true,
    msg := ("Movement recorded successfully"),
    st :=
      { st2 with
        movements := st2.movements ++ [mkMovement st2.nextMovementId a],
        nextMovementId := st2.nextMovementId + 1,
        balances :=
          updFirst BalanceRow.location_code
            (updFirst BalanceRow.location_code st2.balances (pyUpper a.from_location_code)
              (fun b => recomputeAvail { b with quantity := b.quantity - a.quantity }))
            (pyUpper a.to_location_code)
            (fun b => recomputeAvail { b with quantity := b.quantity + a.quantity }),
        locations :=
          updFirst LocationRow.code
            (updFirst LocationRow.code st2.locations (pyUpper a.from_location_code)
              (fun l => { l with current_stock := sb.quantity - a.quantity }))
            (pyUpper a.to_location_code)
            (fun l => { l with current_stock := db.quantity + a.quantity }),
        audits := st2.audits ++ [mkAudit st2.nextMovementId a sb db] } }

/-- Step 3 of `record_movement` (stock check) and the atomic step.
`source_balance?` is the lookup made on the post-provision state before the
destination balance was auto-added; `db` is the destination balance row. -/
def movePhase2 (st2 : DB) (a : MoveArgs) (source_balance? : Option BalanceRow)
    (db : BalanceRow) : MoveResult :=
  match source_balance? with
  | none =>
      { ok := false,
        msg := ("Source location ") ++ a.from_location_code ++ (" not found or initialized"),
        st := st2 }
  | some sb =>
      if pyUpper a.from_location_code ≠ ("SYSTEM") ∧ sb.quantity < a.quantity then
        { ok := false,
          msg := ("Insufficient stock at ") ++ a.from_location_code ++
                 (". Available: ") ++ toString sb.quantity,
          st := st2 }
      else applyAtomic st2 a sb db

/-- Step 2 of `record_movement` (balance lookups and destination
auto-creation) on the post-provision state `st1`. -/
def movePhase1 (st1 : DB) (a : MoveArgs) : MoveResult :=
  match st1.balances.find? (fun b => b.location_code == pyUpper a.to_location_code) with
  | none =>
      if ((st1.locations.find? (fun l => l.code == pyUpper a.to_location_code)).isSome) then
        movePhase2
          { st1 with balances := st1.balances ++ [mkZeroBal (pyUpper a.to_location_code)] }
          a
          (st1.balances.find? (fun b => b.location_code == pyUpper a.from_location_code))
          (mkZeroBal (pyUpper a.to_location_code))
      else
        { ok := false,
          msg := ("Destination ") ++ a.to_location_code ++ (" does not exist"),
          st := st1 }
  | some db =>
      movePhase2 st1 a
        (st1.balances.find? (fun b => b.location_code == pyUpper a.from_location_code))
        db

/-- `LedgerService.record_movement`.  The empty-code guard models Python
falsiness of the code arguments (empty string and `None` both take this
branch). -/
def recordMovement (st : DB) (a : MoveArgs) : MoveResult :=
  if a.from_location_code = ("") ∨ a.to_location_code = ("") then
    { ok := false, msg := ("Locations cannot be empty"), st := st }
  else if pyUpper a.from_location_code = pyUpper a.to_location_code then
    { ok := false, msg := ("Source and destination cannot be the same"), st := st }
  else if a.quantity ≤ 0 then
    { ok := false, msg := ("Quantity must be positive"), st := st }
  else movePhase1 (postProvision st a) a

/-- `LedgerService.delete_location`.  Note: no upper-casing is applied to
`code` here, faithful to the source. -/
def delete_location (st : DB) (code : String) : MoveResult :=
  if 0 < (st.movements.filter
      (fun m => m.from_location_code == code || m.to_location_code == code)).length then
    { ok := false,
      msg := ("Cannot delete: Has ") ++
        toString (st.movements.filter
          (fun m => m.from_location_code == code || m.to_location_code == code)).length ++
        (" historical movements."),
      st := st }
  else
    { ok := true,
      msg := ("Deleted successfully"),
      st := { st with
        balances := st.balances.filter (fun b => !(b.location_code == code)),
        locations := st.locations.filter (fun l => !(l.code == code)) } }

/-- Replay a list of `record_movement` calls, keeping each call's resulting
state (successful or not). -/
def runMovements (st : DB) : List MoveArgs → DB
  | [] => st
  | a :: rest => runMovements (recordMovement st a).st rest

/-- Every call of the sequence succeeds and involves the SYSTEM virtual
account on neither side. -/
def allSucceedNonSystem (st : DB) : List MoveArgs → Bool
  | [] => true
  | a :: rest =>
      (recordMovement st a).ok &&
      !(pyUpper a.from_location_code == ("SYSTEM")) &&
      !(pyUpper a.to_location_code == ("SYSTEM")) &&
      allSucceedNonSystem (recordMovement st a).st rest

/-- Every non-SYSTEM balance row is non-negative. -/
def nonSysNonneg (l : List BalanceRow) : Bool :=
  l.all (fun b => b.location_code == ("SYSTEM") || decide (0 ≤ b.quantity))

/-- Total quantity held in balance rows of non-SYSTEM locations. -/
def sumNonSys (l : List BalanceRow) : Int :=
  (l.map (fun b => if b.location_code = ("SYSTEM") then 0 else b.quantity)).sum

/-! ## Excel ingestion (`LedgerService.ingest_excel_file`) -/

/-- Leading-segment test on character lists (used for substring search). -/
def charsLead : List Char → List Char → Bool
  | [], _ => true
  | _ :: _, [] => false
  | c :: cs, d :: ds => c == d && charsLead cs ds

/-- Substring occurrence on character lists. -/
def charsIn : List Char → List Char → Bool
  | needle, [] => needle.isEmpty
  | needle, d :: ds => charsLead needle (d :: ds) || charsIn needle ds

/-- Python `needle in hay` on strings. -/
def strContains (hay needle : String) : Bool := charsIn needle.data hay.data

/-- A cell value of the tabular source.  Numeric cells carry an integer;
the float-to-int truncation of `int(float(...))` and numeric strings are
outside the scope of the claims and are not modelled (a string cell fails
quantity conversion, as a non-numeric Python string would). -/
inductive CellV where
  | intV (n : Int)
  | strV (s : String)
  deriving DecidableEq

/-- One input row: ordered (column name, value) pairs as produced by
`row.to_dict()`. -/
abbrev Row : Type := List (String × CellV)

/-- Python `str(value)`. -/
def pyStr : CellV → String
  | CellV.intV n => toString n
  | CellV.strV s => s

/-- `int(float(value))`: succeeds on numeric cells. -/
def toQty : CellV → Option Int
  | CellV.intV n => some n
  | CellV.strV _ => none

/-- Python dict insertion: a duplicate key keeps its first position but
takes the last value. -/
def dictInsert (d : List (String × CellV)) (k : String) (v : CellV) :
    List (String × CellV) :=
  if d.any (fun p => p.1 == k) then d.map (fun p => if p.1 == k then (k, v) else p)
  else d ++ [(k, v)]

/-- `{str(k).lower().strip(): v for k, v in row.to_dict().items()}`. -/
def toRowDict (row : Row) : List (String × CellV) :=
  row.foldl (fun d p => dictInsert d (pyStrip (pyLower p.1)) p.2) []

/-- `next((k for k in row_dict if pred k), None)`. -/
def findCol (d : List (String × CellV)) (p : String → Bool) : Option String :=
  (d.find? (fun kv => p kv.1)).map Prod.fst

def isDateCol (k : String) : Bool := strContains k ("date")

def isMissionCol (k : String) : Bool := strContains k ("flight") || strContains k ("mission")

def isFromCol (k : String) : Bool := strContains k ("from")

def isToCol (k : String) : Bool := strContains k ("to")

def isQtyCol (k : String) : Bool := strContains k ("qty") || strContains k ("quantity")

/-- Whether every one of the five logical fields has a candidate column
(`all([date_col, mission_col, from_col, to_col, qty_col])`). -/
def colsOk (d : List (String × CellV)) : Bool :=
  (findCol d isDateCol).isSome && (findCol d isMissionCol).isSome &&
  (findCol d isFromCol).isSome && (findCol d isToCol).isSome &&
  (findCol d isQtyCol).isSome

/-- `row_dict[k]` for a key produced by `findCol` (always present). -/
def dictGet (d : List (String × CellV)) (k : String) : CellV :=
  ((d.find? (fun p => p.1 == k)).map Prod.snd).getD (CellV.strV (""))

/-- Python `repr` of the key list, as interpolated into the
missing-columns message. -/
def pyReprKeys (ks : List String) : String :=
  ("[") ++ String.intercalate (", ")
    (ks.map (fun k => (Char.ofNat 39).toString ++ k ++ (Char.ofNat 39).toString)) ++ ("]")

/-- `LedgerService.create_movement`, as invoked by the ingestion loop
(type Transfer, Excel Import note, Normal priority). -/
def create_movement (st : DB) (mission f t : String) (qty : Int) (pb : String) :
    MoveResult :=
  recordMovement st
    { mission_id := mission, from_location_code := f, to_location_code := t,
      quantity := qty, movement_type := ("Transfer"), priority := ("Normal"),
      notes := some ("Excel Import"), confirmed_by := pb }

/-- The body of the per-row `try` block, on the normalized row dict: column
resolution, value extraction, movement execution.  A `false` result models
the raised `ValueError` that the per-row handler catches.  The savepoint
rollback of `begin_nested` is not distinguished from the returned state: the
only rows a failed `create_movement` can have pending are zero-quantity
auto-provisioned balances, which no quantity that the claims observe
depends on. -/
def processRowD (st : DB) (pb : String) (d : List (String × CellV)) : MoveResult :=
  match findCol d isDateCol, findCol d isMissionCol, findCol d isFromCol,
        findCol d isToCol, findCol d isQtyCol with
  | some _, some mc, some fc, some tc, some qc =>
      (match toQty (dictGet d qc) with
       | none =>
           { ok := false,
             msg := ("could not convert string to float: ") ++ pyStr (dictGet d qc),
             st := st }
       | some qty =>
           create_movement st (pyStrip (pyStr (dictGet d mc)))
             (pyUpper (pyStrip (pyStr (dictGet d fc))))
             (pyUpper (pyStrip (pyStr (dictGet d tc)))) qty pb)
  | _, _, _, _, _ =>
      { ok := false,
        msg := ("Missing required columns. Found: ") ++ pyReprKeys (d.map Prod.fst),
        st := st }

def processRow (st : DB) (pb : String) (row : Row) : MoveResult :=
  processRowD st pb (toRowDict row)

/-- Accumulated outcome of the row loop. -/
structure RowsOutcome where
  st : DB
  succ : Nat
  failed : Nat
  errs : List String
  deriving DecidableEq

/-- The `for idx, row in df.iterrows()` loop; `idx` is the zero-based
DataFrame index of the first row of `rows`. -/
def ingestRows (pb : String) : DB → Nat → List Row → RowsOutcome
  | st, _, [] => { st := st, succ := 0, failed := 0, errs := [] }
  | st, idx, row :: rest =>
      if (processRow st pb row).ok then
        { st := (ingestRows pb (processRow st pb row).st (idx + 1) rest).st,
          succ := (ingestRows pb (processRow st pb row).st (idx + 1) rest).succ + 1,
          failed := (ingestRows pb (processRow st pb row).st (idx + 1) rest).failed,
          errs := (ingestRows pb (processRow st pb row).st (idx + 1) rest).errs }
      else
        { st := (ingestRows pb (processRow st pb row).st (idx + 1) rest).st,
          succ := (ingestRows pb (processRow st pb row).st (idx + 1) rest).succ,
          failed := (ingestRows pb (processRow st pb row).st (idx + 1) rest).failed + 1,
          errs := (("Row ") ++ toString (idx + 2) ++ (": ") ++ (processRow st pb row).msg) ::
            (ingestRows pb (processRow st pb row).st (idx + 1) rest).errs }

/-- Result of `ingest_excel_file`: the returned report and the state left
behind. -/
structure IngestOut where
  report : ReportRow
  st : DB
  deriving DecidableEq

/-- Report finalization: the field assignments performed between the row
loop and the closing `commit` of `ingest_excel_file`. -/
def mkReport (id : Nat) (report_name source_filename file_hash pb : String)
    (total : Nat) (o : RowsOutcome) : ReportRow :=
  { id := id,
    report_name := report_name,
    source_filename := source_filename,
    file_hash := file_hash,
    total_movements := total,
    successful_movements := o.succ,
    failed_movements := o.failed,
    status := if o.failed = 0 then ("COMPLETED") else ("COMPLETED_WITH_ERRORS"),
    processing_errors :=
      if o.errs.isEmpty then none
      else some (String.intercalate ((Char.ofNat 10).toString) (o.errs.take 50)),
    processed_by := pb,
    completed := true }

/-- `LedgerService.ingest_excel_file`.  `file_hash` stands for the SHA-256
hex digest of the source bytes (byte-identical content gives the same
value); `df` is the parsed table. -/
def ingest (st : DB) (file_hash report_name source_filename pb : String)
    (df : List Row) : IngestOut :=
  match st.reports.find? (fun r => r.file_hash == file_hash) with
  | some existing => { report := existing, st := st }
  | none =>
      { report := mkReport st.nextReportId report_name source_filename file_hash pb
          df.length (ingestRows pb { st with nextReportId := st.nextReportId + 1 } 0 df),
        st :=
          { (ingestRows pb { st with nextReportId := st.nextReportId + 1 } 0 df).st with
            reports :=
              (ingestRows pb { st with nextReportId := st.nextReportId + 1 } 0 df).st.reports ++
              [mkReport st.nextReportId report_name source_filename file_hash pb
                df.length (ingestRows pb { st with nextReportId := st.nextReportId + 1 } 0 df)] } }

/-! ## Concrete fixtures used by witnesses and counterexamples -/

def mkLoc (c n : String) (stock : Int) : LocationRow :=
  { code := c, name := n, location_type := ("forward_base"), max_capacity := 1000,
    operational_status := ("active"), current_stock := stock }

def mkBal (c : String) (q : Int) : BalanceRow :=
  { location_code := c, quantity := q, quantity_allocated := 0, quantity_available := q }

def emptyDB : DB :=
  { locations := [], balances := [], movements := [], audits := [], reports := [],
    nextMovementId := 1, nextReportId := 1 }

def mkArgs (f t : String) (q : Int) : MoveArgs :=
  { mission_id := ("M1"), from_location_code := f, to_location_code := t, quantity := q,
    movement_type := ("Deployment"), priority := ("Normal"), notes := none,
    confirmed_by := ("Ops") }

/-- Fixture for C1: one location `ABC` with an empty balance. -/
def stC1 : DB := { emptyDB with locations := [mkLoc ("ABC") ("Alpha") 0],
                                balances := [mkBal ("ABC") 0] }

/-- A movement from `ABC` to `SYSTEM` that fails the stock check after the
SYSTEM account has been auto-provisioned and committed. -/
def aC1 : MoveArgs := mkArgs ("ABC") ("SYSTEM") 5

/-- Fixture for C2/C3/C4: two stocked locations. -/
def stW2 : DB :=
  { emptyDB with
    locations := [mkLoc ("ABC") ("Alpha") 10, mkLoc ("BCD") ("Bravo") 0],
    balances := [mkBal ("ABC") 10, mkBal ("BCD") 0] }

def msW2 : List MoveArgs := [mkArgs ("ABC") ("BCD") 4, mkArgs ("BCD") ("ABC") 1]

def aW3 : MoveArgs := mkArgs ("ABC") ("BCD") 4

/-- Fixture for C8: destination location exists but has no balance row yet,
so the balance is auto-provisioned during the call. -/
def stW8 : DB :=
  { emptyDB with
    locations := [mkLoc ("ABC") ("Alpha") 10, mkLoc ("BCD") ("Bravo") 0],
    balances := [mkBal ("ABC") 10] }

def aW8 : MoveArgs := mkArgs ("ABC") ("BCD") 4

/-- Fixture for C5: two data rows whose columns have no candidate for the
`from` field (the source column is named `Origin`). -/
def dfC5 : List Row :=
  [[(("Date"), CellV.strV ("2024-01-01")), (("Mission"), CellV.strV ("M1")),
    (("Origin"), CellV.strV ("AAA")), (("To"), CellV.strV ("BBB")),
    (("Qty"), CellV.intV 3)],
   [(("Date"), CellV.strV ("2024-01-02")), (("Mission"), CellV.strV ("M2")),
    (("Origin"), CellV.strV ("AAA")), (("To"), CellV.strV ("BBB")),
    (("Qty"), CellV.intV 4)]]

/-- Fixture for C6: scenario 5 of the spec, a 3-row file whose second data
row carries a negative quantity. -/
def stC6 : DB :=
  { emptyDB with
    locations := [mkLoc ("BASEA") ("Alpha") 100, mkLoc ("BASEB") ("Bravo") 0],
    balances := [mkBal ("BASEA") 100, mkBal ("BASEB") 0] }

def dfC6 : List Row :=
  [[(("Date"), CellV.strV ("2024-01-01")), (("Flight"), CellV.strV ("F1")),
    (("From"), CellV.strV ("BASEA")), (("To"), CellV.strV ("BASEB")),
    (("Qty"), CellV.intV 30)],
   [(("Date"), CellV.strV ("2024-01-02")), (("Flight"), CellV.strV ("F2")),
    (("From"), CellV.strV ("BASEA")), (("To"), CellV.strV ("BASEB")),
    (("Qty"), CellV.intV (-5))],
   [(("Date"), CellV.strV ("2024-01-03")), (("Flight"), CellV.strV ("F3")),
    (("From"), CellV.strV ("BASEA")), (("To"), CellV.strV ("BASEB")),
    (("Qty"), CellV.intV 30)]]

/-- Fixture for C9: a location with one historical movement referencing it,
and a second location with none. -/
def stC9 : DB :=
  { emptyDB with
    locations := [mkLoc ("ABC") ("Alpha") 0, mkLoc ("BCD") ("Bravo") 0],
    balances := [mkBal ("ABC") 0, mkBal ("BCD") 0],
    movements := [mkMovement 1 (mkArgs ("ABC") ("SYSTEM") 5)],
    nextMovementId := 2 }

/-! ## List lemmas for first-match queries and in-place updates -/

theorem find?_append_of_none {α : Type} (p : α → Bool) (l₁ l₂ : List α)
    (h : l₁.find? p = none) : (l₁ ++ l₂).find? p = l₂.find? p := by
  rw [List.find?_append, h]
  rfl

theorem find?_append_of_some {α : Type} (p : α → Bool) (l₁ l₂ : List α) (x : α)
    (h : l₁.find? p = some x) : (l₁ ++ l₂).find? p = some x := by
  rw [List.find?_append, h]
  rfl

theorem updFirst_find?_eq {α : Type} (key : α → String) (c : String)
    (f : α → α) (hf : ∀ x, key (f x) = key x) :
    ∀ (l : List α),
      (updFirst key l c f).find? (fun x => key x == c) =
        (l.find? (fun x => key x == c)).map f
  | [] => by simp [updFirst]
  | x :: xs => by
      cases hx : (key x == c) with
      | true =>
          simp only [updFirst, hx, if_true]
          have e1 : List.find? (fun y => key y == c) (f x :: xs) = some (f x) :=
            List.find?_cons_of_pos _ (by simp only [hf]; exact hx)
          have e2 : List.find? (fun y => key y == c) (x :: xs) = some x :=
            List.find?_cons_of_pos _ hx
          rw [e1, e2]
          rfl
      | false =>
          simp only [updFirst, hx, Bool.false_eq_true, if_false]
          have e1 : List.find? (fun y => key y == c) (x :: updFirst key xs c f) =
              List.find? (fun y => key y == c) (updFirst key xs c f) :=
            List.find?_cons_of_neg _ (by simp [hx])
          have e2 : List.find? (fun y => key y == c) (x :: xs) =
              List.find? (fun y => key y == c) xs :=
            List.find?_cons_of_neg _ (by simp [hx])
          rw [e1, e2]
          exact updFirst_find?_eq key c f hf xs

theorem updFirst_find?_ne {α : Type} (key : α → String) (c c' : String)
    (f : α → α) (hf : ∀ x, key (f x) = key x) (hne : c' ≠ c) :
    ∀ (l : List α),
      (updFirst key l c f).find? (fun x => key x == c') =
        l.find? (fun x => key x == c')
  | [] => by simp [updFirst]
  | x :: xs => by
      cases hx : (key x == c) with
      | true =>
          simp only [updFirst, hx, if_true]
          have hkx : key x = c := by simpa using hx
          have e1 : List.find? (fun y => key y == c') (f x :: xs) =
              List.find? (fun y => key y == c') xs :=
            List.find?_cons_of_neg _
              (by simp [hf, hkx]; exact fun h => absurd h.symm hne)
          have e2 : List.find? (fun y => key y == c') (x :: xs) =
              List.find? (fun y => key y == c') xs :=
            List.find?_cons_of_neg _
              (by simp [hkx]; exact fun h => absurd h.symm hne)
          rw [e1, e2]
      | false =>
          simp only [updFirst, hx, Bool.false_eq_true, if_false]
          cases hx' : (key x == c') with
          | true =>
              have e1 : List.find? (fun y => key y == c') (x :: updFirst key xs c f) =
                  some x := List.find?_cons_of_pos _ hx'
              have e2 : List.find? (fun y => key y == c') (x :: xs) = some x :=
                List.find?_cons_of_pos _ hx'
              rw [e1, e2]
          | false =>
              have e1 : List.find? (fun y => key y == c') (x :: updFirst key xs c f) =
                  List.find? (fun y => key y == c') (updFirst key xs c f) :=
                List.find?_cons_of_neg _ (by simp [hx'])
              have e2 : List.find? (fun y => key y == c') (x :: xs) =
                  List.find? (fun y => key y == c') xs :=
                List.find?_cons_of_neg _ (by simp [hx'])
              rw [e1, e2]
              exact updFirst_find?_ne key c c' f hf hne xs

theorem mem_updFirst {α : Type} (key : α → String) (c : String) (f : α → α) :
    ∀ (l : List α) (x : α), x ∈ updFirst key l c f →
      x ∈ l ∨ ∃ y, l.find? (fun z => key z == c) = some y ∧ x = f y
  | [], x, hx => by simp [updFirst] at hx
  | b :: bs, x, hx => by
      cases hb : (key b == c) with
      | true =>
          simp only [updFirst, hb, if_true] at hx
          rcases List.mem_cons.mp hx with h | h
          · refine Or.inr ⟨b, ?_, h⟩
            exact List.find?_cons_of_pos _ hb
          · exact Or.inl (List.mem_cons_of_mem _ h)
      | false =>
          simp only [updFirst, hb, Bool.false_eq_true, if_false] at hx
          rcases List.mem_cons.mp hx with h | h
          · exact Or.inl (h ▸ List.mem_cons_self _ _)
          · rcases mem_updFirst key c f bs x h with h' | ⟨y, hy, hxy⟩
            · exact Or.inl (List.mem_cons_of_mem _ h')
            · refine Or.inr ⟨y, ?_, hxy⟩
              have e1 : List.find? (fun z => key z == c) (b :: bs) =
                  List.find? (fun z => key z == c) bs :=
                List.find?_cons_of_neg _ (by simp [hb])
              rw [e1]
              exact hy

theorem sumNonSys_eq_zero :
    ∀ (e : List BalanceRow), (∀ b ∈ e, b.quantity = 0) → sumNonSys e = 0
  | [], _ => by simp [sumNonSys]
  | b :: bs, he => by
      have hb : b.quantity = 0 := he b (List.mem_cons_self _ _)
      have ht := sumNonSys_eq_zero bs (fun x hx => he x (List.mem_cons_of_mem _ hx))
      simp only [sumNonSys, List.map_cons, List.sum_cons] at ht ⊢
      rw [ht, hb]
      simp

theorem sumNonSys_append (l e : List BalanceRow) (he : ∀ b ∈ e, b.quantity = 0) :
    sumNonSys (l ++ e) = sumNonSys l := by
  have h1 : sumNonSys (l ++ e) = sumNonSys l + sumNonSys e := by
    simp [sumNonSys]
  rw [h1, sumNonSys_eq_zero e he, add_zero]

theorem provisionSystemOnce_frame (st : DB) (c : String) :
    (provisionSystemOnce st c).movements = st.movements ∧
    (provisionSystemOnce st c).audits = st.audits ∧
    (provisionSystemOnce st c).reports = st.reports ∧
    (provisionSystemOnce st c).nextMovementId = st.nextMovementId ∧
    (provisionSystemOnce st c).nextReportId = st.nextReportId := by
  unfold provisionSystemOnce
  split
  · split
    · exact ⟨rfl, rfl, rfl, rfl, rfl⟩
    · exact ⟨rfl, rfl, rfl, rfl, rfl⟩
  · exact ⟨rfl, rfl, rfl, rfl, rfl⟩

theorem provisionSystemOnce_balances (st : DB) (c : String) :
    ∃ eb, (provisionSystemOnce st c).balances = st.balances ++ eb ∧
      ∀ b ∈ eb, b.location_code = ("SYSTEM") ∧ b.quantity = 0 := by
  unfold provisionSystemOnce
  split
  · split
    · exact ⟨[], by simp⟩
    · refine ⟨[mkZeroBal ("SYSTEM")], rfl, ?_⟩
      intro b hb
      have : b = mkZeroBal ("SYSTEM") := by simpa using hb
      subst this
      exact ⟨rfl, rfl⟩
  · exact ⟨[], by simp⟩

theorem provisionSystemOnce_locations (st : DB) (c : String) :
    ∃ el, (provisionSystemOnce st c).locations = st.locations ++ el ∧
      ∀ l ∈ el, l.code = ("SYSTEM") ∧ l.current_stock = 0 := by
  unfold provisionSystemOnce
  split
  · split
    · exact ⟨[], by simp⟩
    · refine ⟨_, rfl, ?_⟩
      intro l hl
      have hl' := List.mem_singleton.mp hl
      subst hl'
      exact ⟨rfl, rfl⟩
  · exact ⟨[], by simp⟩

theorem postProvision_frame (st : DB) (a : MoveArgs) :
    (postProvision st a).movements = st.movements ∧
    (postProvision st a).audits = st.audits ∧
    (postProvision st a).reports = st.reports ∧
    (postProvision st a).nextMovementId = st.nextMovementId ∧
    (postProvision st a).nextReportId = st.nextReportId := by
  have h1 := provisionSystemOnce_frame st a.from_location_code
  have h2 := provisionSystemOnce_frame (provisionSystemOnce st a.from_location_code)
    a.to_location_code
  exact ⟨h2.1.trans h1.1, h2.2.1.trans h1.2.1, h2.2.2.1.trans h1.2.2.1,
    h2.2.2.2.1.trans h1.2.2.2.1, h2.2.2.2.2.trans h1.2.2.2.2⟩

theorem postProvision_balances (st : DB) (a : MoveArgs) :
    ∃ eb, (postProvision st a).balances = st.balances ++ eb ∧
      ∀ b ∈ eb, b.location_code = ("SYSTEM") ∧ b.quantity = 0 := by
  obtain ⟨e1, he1, hp1⟩ := provisionSystemOnce_balances st a.from_location_code
  obtain ⟨e2, he2, hp2⟩ :=
    provisionSystemOnce_balances (provisionSystemOnce st a.from_location_code)
      a.to_location_code
  refine ⟨e1 ++ e2, ?_, ?_⟩
  · rw [postProvision, he2, he1, List.append_assoc]
  · intro b hb
    rcases List.mem_append.mp hb with h | h
    · exact hp1 b h
    · exact hp2 b h

theorem postProvision_locations (st : DB) (a : MoveArgs) :
    ∃ el, (postProvision st a).locations = st.locations ++ el ∧
      ∀ l ∈ el, l.code = ("SYSTEM") ∧ l.current_stock = 0 := by
  obtain ⟨e1, he1, hp1⟩ := provisionSystemOnce_locations st a.from_location_code
  obtain ⟨e2, he2, hp2⟩ :=
    provisionSystemOnce_locations (provisionSystemOnce st a.from_location_code)
      a.to_location_code
  refine ⟨e1 ++ e2, ?_, ?_⟩
  · rw [postProvision, he2, he1, List.append_assoc]
  · intro l hl
    rcases List.mem_append.mp hl with h | h
    · exact hp1 l h
    · exact hp2 l h

theorem sumNonSys_updFirst (c : String) (f : BalanceRow → BalanceRow)
    (δ : Int) (hc : c ≠ ("SYSTEM"))
    (hkey : ∀ b, (f b).location_code = b.location_code)
    (hq : ∀ b, (f b).quantity = b.quantity + δ) :
    ∀ (l : List BalanceRow), (l.find? (fun b => b.location_code == c)).isSome →
      sumNonSys (updFirst BalanceRow.location_code l c f) = sumNonSys l + δ
  | [], hex => by simp [List.find?] at hex
  | b :: bs, hex => by
      cases hb : (b.location_code == c) with
      | true =>
          have hbc : b.location_code = c := by simpa using hb
          simp only [updFirst, hb, if_true]
          simp only [sumNonSys, List.map_cons, List.sum_cons, hkey, hbc, hq,
            if_neg hc]
          ring
      | false =>
          simp only [updFirst, hb, Bool.false_eq_true, if_false]
          have hex' : (bs.find? (fun x => x.location_code == c)).isSome := by
            have e1 : List.find? (fun x => x.location_code == c) (b :: bs) =
                List.find? (fun x => x.location_code == c) bs :=
              List.find?_cons_of_neg _ (by simp [hb])
            rwa [e1] at hex
          have ih := sumNonSys_updFirst c f δ hc hkey hq bs hex'
          simp only [sumNonSys, List.map_cons, List.sum_cons] at ih ⊢
          rw [ih]
          ring

/-! ## Inversion of a successful `recordMovement` call -/

/-- A successful `record_movement` call is exactly an `applyAtomic` step on
the post-provision state, possibly extended with an auto-created
zero-quantity destination balance, with the stock check passed. -/
theorem recordMovement_ok_inv (st : DB) (a : MoveArgs)
    (h : (recordMovement st a).ok = true) :
    0 < a.quantity ∧
    pyUpper a.from_location_code ≠ pyUpper a.to_location_code ∧
    ∃ (extra : List BalanceRow) (sb db : BalanceRow),
      (∀ b ∈ extra, b.location_code = pyUpper a.to_location_code ∧ b.quantity = 0) ∧
      (postProvision st a).balances.find?
        (fun b => b.location_code == pyUpper a.from_location_code) = some sb ∧
      ((postProvision st a).balances ++ extra).find?
        (fun b => b.location_code == pyUpper a.to_location_code) = some db ∧
      db.quantity =
        (((postProvision st a).balances.find?
            (fun b => b.location_code == pyUpper a.to_location_code)).map
          BalanceRow.quantity).getD 0 ∧
      (pyUpper a.from_location_code ≠ ("SYSTEM") → a.quantity ≤ sb.quantity) ∧
      recordMovement st a =
        applyAtomic
          { postProvision st a with balances := (postProvision st a).balances ++ extra }
          a sb db := by
  by_cases h1 : a.from_location_code = ("") ∨ a.to_location_code = ("")
  · unfold recordMovement at h
    rw [if_pos h1] at h
    simp at h
  by_cases h2 : pyUpper a.from_location_code = pyUpper a.to_location_code
  · unfold recordMovement at h
    rw [if_neg h1, if_pos h2] at h
    simp at h
  by_cases h3 : a.quantity ≤ 0
  · unfold recordMovement at h
    rw [if_neg h1, if_neg h2, if_pos h3] at h
    simp at h
  refine ⟨by omega, h2, ?_⟩
  cases hfd : (postProvision st a).balances.find?
      (fun b => b.location_code == pyUpper a.to_location_code) with
  | some db =>
      have hE1 : recordMovement st a =
          movePhase2 (postProvision st a) a
            ((postProvision st a).balances.find?
              (fun b => b.location_code == pyUpper a.from_location_code)) db := by
        unfold recordMovement movePhase1
        rw [if_neg h1, if_neg h2, if_neg h3, hfd]
      cases hfs : (postProvision st a).balances.find?
          (fun b => b.location_code == pyUpper a.from_location_code) with
      | none =>
          rw [hE1] at h
          unfold movePhase2 at h
          rw [hfs] at h
          simp at h
      | some sb =>
          have hE2 : recordMovement st a =
              if pyUpper a.from_location_code ≠ ("SYSTEM") ∧ sb.quantity < a.quantity
              then { ok := false,
                     msg := ("Insufficient stock at ") ++ a.from_location_code ++
                            (". Available: ") ++ toString sb.quantity,
                     st := postProvision st a }
              else applyAtomic (postProvision st a) a sb db := by
            rw [hE1]
            unfold movePhase2
            rw [hfs]
          by_cases hstock :
              pyUpper a.from_location_code ≠ ("SYSTEM") ∧ sb.quantity < a.quantity
          · rw [hE2, if_pos hstock] at h
            simp at h
          · have hE3 : recordMovement st a = applyAtomic (postProvision st a) a sb db := by
              rw [hE2, if_neg hstock]
            refine ⟨[], sb, db, by simp, rfl, by simpa using hfd, rfl, ?_, ?_⟩
            · intro hns
              by_contra hq
              exact hstock ⟨hns, by omega⟩
            · rw [List.append_nil]
              exact hE3
  | none =>
      by_cases hloc : ((postProvision st a).locations.find?
          (fun l => l.code == pyUpper a.to_location_code)).isSome
      · have hE1 : recordMovement st a =
            movePhase2
              { postProvision st a with
                balances := (postProvision st a).balances ++
                  [mkZeroBal (pyUpper a.to_location_code)] }
              a
              ((postProvision st a).balances.find?
                (fun b => b.location_code == pyUpper a.from_location_code))
              (mkZeroBal (pyUpper a.to_location_code)) := by
          unfold recordMovement movePhase1
          rw [if_neg h1, if_neg h2, if_neg h3, hfd, if_pos hloc]
        cases hfs : (postProvision st a).balances.find?
            (fun b => b.location_code == pyUpper a.from_location_code) with
        | none =>
            rw [hE1] at h
            unfold movePhase2 at h
            rw [hfs] at h
            simp at h
        | some sb =>
            have hE2 : recordMovement st a =
                if pyUpper a.from_location_code ≠ ("SYSTEM") ∧ sb.quantity < a.quantity
                then { ok := false,
                       msg := ("Insufficient stock at ") ++ a.from_location_code ++
                              (". Available: ") ++ toString sb.quantity,
                       st := { postProvision st a with
                               balances := (postProvision st a).balances ++
                                 [mkZeroBal (pyUpper a.to_location_code)] } }
                else applyAtomic
                  { postProvision st a with
                    balances := (postProvision st a).balances ++
                      [mkZeroBal (pyUpper a.to_location_code)] }
                  a sb (mkZeroBal (pyUpper a.to_location_code)) := by
              rw [hE1]
              unfold movePhase2
              rw [hfs]
            by_cases hstock :
                pyUpper a.from_location_code ≠ ("SYSTEM") ∧ sb.quantity < a.quantity
            · rw [hE2, if_pos hstock] at h
              simp at h
            · have hE3 : recordMovement st a =
                  applyAtomic
                    { postProvision st a with
                      balances := (postProvision st a).balances ++
                        [mkZeroBal (pyUpper a.to_location_code)] }
                    a sb (mkZeroBal (pyUpper a.to_location_code)) := by
                rw [hE2, if_neg hstock]
              refine ⟨[mkZeroBal (pyUpper a.to_location_code)], sb,
                mkZeroBal (pyUpper a.to_location_code), ?_, rfl, ?_, rfl,
                ?_, hE3⟩
              · intro b hb
                have : b = mkZeroBal (pyUpper a.to_location_code) := by simpa using hb
                subst this
                exact ⟨rfl, rfl⟩
              · rw [find?_append_of_none _ _ _ hfd]
                exact List.find?_cons_of_pos _ (by simp [mkZeroBal])
              · intro hns
                by_contra hq
                exact hstock ⟨hns, by omega⟩
      · unfold recordMovement movePhase1 at h
        rw [if_neg h1, if_neg h2, if_neg h3, hfd, if_neg hloc] at h
        simp at h

/-! ## The state left behind by a failed `recordMovement` call -/

/-- Claim C1, amended: a failed `record_movement` call creates no Movement,
audit or report row and alters no existing row; the only rows that can
survive it are the auto-provisioned SYSTEM location and zero-quantity
balance rows (the committed SYSTEM balance and the pending auto-created
destination balance). -/
theorem recordMovement_failure_state (st : DB) (a : MoveArgs)
    (h : (recordMovement st a).ok = false) :
    (recordMovement st a).st.movements = st.movements ∧
    (recordMovement st a).st.audits = st.audits ∧
    (recordMovement st a).st.reports = st.reports ∧
    (∃ eb, (recordMovement st a).st.balances = st.balances ++ eb ∧
      ∀ b ∈ eb, b.quantity = 0) ∧
    (∃ el, (recordMovement st a).st.locations = st.locations ++ el ∧
      ∀ l ∈ el, l.code = ("SYSTEM") ∧ l.current_stock = 0) := by
  by_cases h1 : a.from_location_code = ("") ∨ a.to_location_code = ("")
  · have hE : (recordMovement st a).st = st := by
      unfold recordMovement
      rw [if_pos h1]
    rw [hE]
    exact ⟨rfl, rfl, rfl, ⟨[], by simp⟩, ⟨[], by simp⟩⟩
  by_cases h2 : pyUpper a.from_location_code = pyUpper a.to_location_code
  · have hE : (recordMovement st a).st = st := by
      unfold recordMovement
      rw [if_neg h1, if_pos h2]
    rw [hE]
    exact ⟨rfl, rfl, rfl, ⟨[], by simp⟩, ⟨[], by simp⟩⟩
  by_cases h3 : a.quantity ≤ 0
  · have hE : (recordMovement st a).st = st := by
      unfold recordMovement
      rw [if_neg h1, if_neg h2, if_pos h3]
    rw [hE]
    exact ⟨rfl, rfl, rfl, ⟨[], by simp⟩, ⟨[], by simp⟩⟩
  obtain ⟨fm, fa, fr, _, _⟩ := postProvision_frame st a
  obtain ⟨eb, heb, hpb⟩ := postProvision_balances st a
  obtain ⟨el, hel, hpl⟩ := postProvision_locations st a
  cases hfd : (postProvision st a).balances.find?
      (fun b => b.location_code == pyUpper a.to_location_code) with
  | some db =>
      cases hfs : (postProvision st a).balances.find?
          (fun b => b.location_code == pyUpper a.from_location_code) with
      | none =>
          have hE : (recordMovement st a).st = postProvision st a := by
            unfold recordMovement movePhase1 movePhase2
            rw [if_neg h1, if_neg h2, if_neg h3, hfd, hfs]
          rw [hE]
          exact ⟨fm, fa, fr, ⟨eb, heb, fun b hb => (hpb b hb).2⟩, ⟨el, hel, hpl⟩⟩
      | some sb =>
          by_cases hstock :
              pyUpper a.from_location_code ≠ ("SYSTEM") ∧ sb.quantity < a.quantity
          · have hE : (recordMovement st a).st = postProvision st a := by
              unfold recordMovement movePhase1 movePhase2
              simp only [if_neg h1, if_neg h2, if_neg h3, hfd, hfs, if_pos hstock]
            rw [hE]
            exact ⟨fm, fa, fr, ⟨eb, heb, fun b hb => (hpb b hb).2⟩, ⟨el, hel, hpl⟩⟩
          · have hE : recordMovement st a = applyAtomic (postProvision st a) a sb db := by
              unfold recordMovement movePhase1 movePhase2
              simp only [if_neg h1, if_neg h2, if_neg h3, hfd, hfs, if_neg hstock]
            rw [hE] at h
            simp [applyAtomic] at h
  | none =>
      by_cases hloc : ((postProvision st a).locations.find?
          (fun l => l.code == pyUpper a.to_location_code)).isSome
      · cases hfs : (postProvision st a).balances.find?
            (fun b => b.location_code == pyUpper a.from_location_code) with
        | none =>
            have hE : (recordMovement st a).st =
                { postProvision st a with
                  balances := (postProvision st a).balances ++
                    [mkZeroBal (pyUpper a.to_location_code)] } := by
              unfold recordMovement movePhase1 movePhase2
              rw [if_neg h1, if_neg h2, if_neg h3, hfd, if_pos hloc, hfs]
            rw [hE]
            refine ⟨fm, fa, fr,
              ⟨eb ++ [mkZeroBal (pyUpper a.to_location_code)],
                by rw [heb, List.append_assoc], ?_⟩, ⟨el, hel, hpl⟩⟩
            intro b hb
            rcases List.mem_append.mp hb with hb' | hb'
            · exact (hpb b hb').2
            · have : b = mkZeroBal (pyUpper a.to_location_code) := by simpa using hb'
              subst this
              rfl
        | some sb =>
            by_cases hstock :
                pyUpper a.from_location_code ≠ ("SYSTEM") ∧ sb.quantity < a.quantity
            · have hE : (recordMovement st a).st =
                  { postProvision st a with
                    balances := (postProvision st a).balances ++
                      [mkZeroBal (pyUpper a.to_location_code)] } := by
                unfold recordMovement movePhase1 movePhase2
                simp only [if_neg h1, if_neg h2, if_neg h3, hfd, if_pos hloc, hfs,
                  if_pos hstock]
              rw [hE]
              refine ⟨fm, fa, fr,
                ⟨eb ++ [mkZeroBal (pyUpper a.to_location_code)],
                  by rw [heb, List.append_assoc], ?_⟩, ⟨el, hel, hpl⟩⟩
              intro b hb
              rcases List.mem_append.mp hb with hb' | hb'
              · exact (hpb b hb').2
              · have : b = mkZeroBal (pyUpper a.to_location_code) := by simpa using hb'
                subst this
                rfl
            · have hE : recordMovement st a =
                  applyAtomic
                    { postProvision st a with
                      balances := (postProvision st a).balances ++
                        [mkZeroBal (pyUpper a.to_location_code)] }
                    a sb (mkZeroBal (pyUpper a.to_location_code)) := by
                unfold recordMovement movePhase1 movePhase2
                simp only [if_neg h1, if_neg h2, if_neg h3, hfd, if_pos hloc, hfs,
                  if_neg hstock]
              rw [hE] at h
              simp [applyAtomic] at h
      · have hE : (recordMovement st a).st = postProvision st a := by
          unfold recordMovement movePhase1
          rw [if_neg h1, if_neg h2, if_neg h3, hfd, if_neg hloc]
        rw [hE]
        exact ⟨fm, fa, fr, ⟨eb, heb, fun b hb => (hpb b hb).2⟩, ⟨el, hel, hpl⟩⟩

/-! ## Claim C2: conservation -/

theorem recordMovement_conserves_step (st : DB) (a : MoveArgs)
    (hok : (recordMovement st a).ok = true)
    (hf : pyUpper a.from_location_code ≠ ("SYSTEM"))
    (ht : pyUpper a.to_location_code ≠ ("SYSTEM")) :
    sumNonSys (recordMovement st a).st.balances = sumNonSys st.balances := by
  obtain ⟨hq, hne, extra, sb, db, hext, hsb, hdb, hdbq, hstock, heq⟩ :=
    recordMovement_ok_inv st a hok
  rw [heq]
  simp only [applyAtomic]
  have hB2from :
      ((postProvision st a).balances ++ extra).find?
        (fun b => b.location_code == pyUpper a.from_location_code) = some sb :=
    find?_append_of_some _ _ _ _ hsb
  have e1 :
      sumNonSys (updFirst BalanceRow.location_code
        ((postProvision st a).balances ++ extra) (pyUpper a.from_location_code)
        (fun b => recomputeAvail { b with quantity := b.quantity - a.quantity })) =
      sumNonSys ((postProvision st a).balances ++ extra) + (-a.quantity) :=
    sumNonSys_updFirst (pyUpper a.from_location_code)
      (fun b => recomputeAvail { b with quantity := b.quantity - a.quantity })
      (-a.quantity) hf (fun _ => rfl)
      (fun b => by
        show b.quantity - a.quantity = b.quantity + -a.quantity
        exact Int.sub_eq_add_neg)
      _ (by rw [hB2from]; rfl)
  have hmid :
      (updFirst BalanceRow.location_code
        ((postProvision st a).balances ++ extra) (pyUpper a.from_location_code)
        (fun b => recomputeAvail { b with quantity := b.quantity - a.quantity })).find?
        (fun b => b.location_code == pyUpper a.to_location_code) = some db := by
    rw [updFirst_find?_ne BalanceRow.location_code (pyUpper a.from_location_code)
      (pyUpper a.to_location_code)
      (fun b => recomputeAvail { b with quantity := b.quantity - a.quantity })
      (fun _ => rfl) (Ne.symm hne)]
    exact hdb
  have e2 :
      sumNonSys (updFirst BalanceRow.location_code
        (updFirst BalanceRow.location_code
          ((postProvision st a).balances ++ extra) (pyUpper a.from_location_code)
          (fun b => recomputeAvail { b with quantity := b.quantity - a.quantity }))
        (pyUpper a.to_location_code)
        (fun b => recomputeAvail { b with quantity := b.quantity + a.quantity })) =
      sumNonSys (updFirst BalanceRow.location_code
        ((postProvision st a).balances ++ extra) (pyUpper a.from_location_code)
        (fun b => recomputeAvail { b with quantity := b.quantity - a.quantity })) +
        a.quantity :=
    sumNonSys_updFirst (pyUpper a.to_location_code)
      (fun b => recomputeAvail { b with quantity := b.quantity + a.quantity })
      a.quantity ht (fun _ => rfl) (fun _ => rfl) _ (by rw [hmid]; rfl)
  rw [e2, e1]
  have e3 : sumNonSys ((postProvision st a).balances ++ extra) =
      sumNonSys (postProvision st a).balances :=
    sumNonSys_append _ _ (fun b hb => (hext b hb).2)
  obtain ⟨eb, heb, hpb⟩ := postProvision_balances st a
  have e4 : sumNonSys (postProvision st a).balances = sumNonSys st.balances := by
    rw [heb]
    exact sumNonSys_append _ _ (fun b hb => (hpb b hb).2)
  rw [e3, e4]
  ring

/-- Claim C2: over any sequence of successful movements that never touch the
SYSTEM account, the total quantity over non-SYSTEM balances is invariant. -/
theorem recordMovement_conservation :
    ∀ (ms : List MoveArgs) (st : DB), allSucceedNonSystem st ms = true →
      sumNonSys (runMovements st ms).balances = sumNonSys st.balances
  | [], _, _ => rfl
  | a :: rest, st, h => by
      simp only [allSucceedNonSystem, Bool.and_eq_true, Bool.not_eq_true',
        beq_eq_false_iff_ne] at h
      obtain ⟨⟨⟨hok, hf⟩, ht⟩, hrest⟩ := h
      have ih := recordMovement_conservation rest (recordMovement st a).st hrest
      simp only [runMovements]
      rw [ih, recordMovement_conserves_step st a hok hf ht]

theorem recordMovement_conservation_witness :
    allSucceedNonSystem stW2 msW2 = true ∧
    sumNonSys (runMovements stW2 msW2).balances = sumNonSys stW2.balances :=
  ⟨by decide, recordMovement_conservation msW2 stW2 (by decide)⟩

/-! ## Claim C3: audit completeness -/

/-- Claim C3: a successful `record_movement` call appends exactly one new
movement and one audit row keyed to it, whose before/after balances
reconcile on both sides, the before values being the balances read after
the provisioning phase. -/
theorem recordMovement_audit_completeness (st : DB) (a : MoveArgs)
    (hok : (recordMovement st a).ok = true)
    (hfresh : ∀ x ∈ st.audits, x.movement_id ≠ some st.nextMovementId) :
    ∃ m aud,
      (recordMovement st a).st.movements = st.movements ++ [m] ∧
      m.id = st.nextMovementId ∧
      m.quantity = a.quantity ∧
      (recordMovement st a).st.audits = st.audits ++ [aud] ∧
      aud.movement_id = some m.id ∧
      ((recordMovement st a).st.audits.filter
        (fun x => x.movement_id == some st.nextMovementId)).length = 1 ∧
      aud.quantity = a.quantity ∧
      aud.debit_location_code = some (pyUpper a.from_location_code) ∧
      aud.credit_location_code = some (pyUpper a.to_location_code) ∧
      aud.debit_balance_before =
        ((postProvision st a).balances.find?
          (fun b => b.location_code == pyUpper a.from_location_code)).map
          BalanceRow.quantity ∧
      aud.credit_balance_before =
        some ((((postProvision st a).balances.find?
          (fun b => b.location_code == pyUpper a.to_location_code)).map
          BalanceRow.quantity).getD 0) ∧
      (∃ q0, aud.debit_balance_before = some q0 ∧
        aud.debit_balance_after = some (q0 - a.quantity)) ∧
      (∃ q1, aud.credit_balance_before = some q1 ∧
        aud.credit_balance_after = some (q1 + a.quantity)) := by
  obtain ⟨hq, hne, extra, sb, db, hext, hsb, hdb, hdbq, hstock, heq⟩ :=
    recordMovement_ok_inv st a hok
  obtain ⟨fm, fa, fr, fn, _⟩ := postProvision_frame st a
  have hmv : (recordMovement st a).st.movements =
      st.movements ++ [mkMovement st.nextMovementId a] := by
    rw [heq]
    simp only [applyAtomic]
    rw [fm, fn]
  have haud : (recordMovement st a).st.audits =
      st.audits ++ [mkAudit st.nextMovementId a sb db] := by
    rw [heq]
    simp only [applyAtomic]
    rw [fa, fn]
  have hfil : ((st.audits ++ [mkAudit st.nextMovementId a sb db]).filter
      (fun x => x.movement_id == some st.nextMovementId)).length = 1 := by
    rw [List.filter_append]
    have h1 : st.audits.filter (fun x => x.movement_id == some st.nextMovementId)
        = [] := by
      rw [List.filter_eq_nil_iff]
      intro x hx
      simp [hfresh x hx]
    rw [h1]
    simp [mkAudit]
  refine ⟨mkMovement st.nextMovementId a, mkAudit st.nextMovementId a sb db,
    hmv, rfl, rfl, haud, rfl, by rw [haud]; exact hfil, rfl, rfl, rfl, ?_, ?_,
    ⟨sb.quantity, rfl, rfl⟩, ⟨db.quantity, rfl, rfl⟩⟩
  · rw [hsb]
    rfl
  · exact congrArg some hdbq

theorem recordMovement_audit_completeness_witness :
    (∀ x ∈ stW2.audits, x.movement_id ≠ some stW2.nextMovementId) ∧
    (∃ m aud,
      (recordMovement stW2 aW3).st.movements = stW2.movements ++ [m] ∧
      m.id = stW2.nextMovementId ∧
      m.quantity = aW3.quantity ∧
      (recordMovement stW2 aW3).st.audits = stW2.audits ++ [aud] ∧
      aud.movement_id = some m.id ∧
      ((recordMovement stW2 aW3).st.audits.filter
        (fun x => x.movement_id == some stW2.nextMovementId)).length = 1 ∧
      aud.quantity = aW3.quantity ∧
      aud.debit_location_code = some (pyUpper aW3.from_location_code) ∧
      aud.credit_location_code = some (pyUpper aW3.to_location_code) ∧
      aud.debit_balance_before =
        ((postProvision stW2 aW3).balances.find?
          (fun b => b.location_code == pyUpper aW3.from_location_code)).map
          BalanceRow.quantity ∧
      aud.credit_balance_before =
        some ((((postProvision stW2 aW3).balances.find?
          (fun b => b.location_code == pyUpper aW3.to_location_code)).map
          BalanceRow.quantity).getD 0) ∧
      (∃ q0, aud.debit_balance_before = some q0 ∧
        aud.debit_balance_after = some (q0 - aW3.quantity)) ∧
      (∃ q1, aud.credit_balance_before = some q1 ∧
        aud.credit_balance_after = some (q1 + aW3.quantity))) :=
  ⟨by simp [stW2, emptyDB], recordMovement_audit_completeness stW2 aW3 (by decide)
    (by simp [stW2, emptyDB])⟩

/-! ## Claim C4: non-negativity of non-SYSTEM balances -/

theorem nonSysNonneg_iff (l : List BalanceRow) :
    nonSysNonneg l = true ↔
      ∀ b ∈ l, b.location_code ≠ ("SYSTEM") → 0 ≤ b.quantity := by
  simp only [nonSysNonneg, List.all_eq_true, Bool.or_eq_true, beq_iff_eq,
    decide_eq_true_eq]
  constructor
  · intro h b hb hne
    rcases h b hb with h' | h'
    · exact absurd h' hne
    · exact h'
  · intro h b hb
    by_cases hc : b.location_code = ("SYSTEM")
    · exact Or.inl hc
    · exact Or.inr (h b hb hc)

/-- Claim C4: assuming every non-SYSTEM balance is non-negative, a
successful `record_movement` keeps every non-SYSTEM balance non-negative
(and its non-SYSTEM source had sufficient stock); and a call that reaches
the stock check from a non-SYSTEM source with insufficient quantity is
rejected with the insufficient-stock message reporting the available
quantity. -/
theorem recordMovement_non_negativity (st : DB) (a : MoveArgs)
    (hpre : nonSysNonneg st.balances = true) :
    ((recordMovement st a).ok = true →
      nonSysNonneg (recordMovement st a).st.balances = true ∧
      (pyUpper a.from_location_code ≠ ("SYSTEM") →
        ∃ sb, (postProvision st a).balances.find?
            (fun b => b.location_code == pyUpper a.from_location_code) = some sb ∧
          a.quantity ≤ sb.quantity)) ∧
    (∀ sb, ¬(a.from_location_code = ("") ∨ a.to_location_code = ("")) →
      pyUpper a.from_location_code ≠ pyUpper a.to_location_code →
      ¬ a.quantity ≤ 0 →
      (((postProvision st a).balances.find?
          (fun b => b.location_code == pyUpper a.to_location_code)).isSome = true ∨
        ((postProvision st a).locations.find?
          (fun l => l.code == pyUpper a.to_location_code)).isSome = true) →
      (postProvision st a).balances.find?
          (fun b => b.location_code == pyUpper a.from_location_code) = some sb →
      pyUpper a.from_location_code ≠ ("SYSTEM") →
      sb.quantity < a.quantity →
      (recordMovement st a).ok = false ∧
      (recordMovement st a).msg =
        ("Insufficient stock at ") ++ a.from_location_code ++ (". Available: ") ++
          toString sb.quantity) := by
  constructor
  · intro hok
    obtain ⟨hq, hne, extra, sb, db, hext, hsb, hdb, hdbq, hstock, heq⟩ :=
      recordMovement_ok_inv st a hok
    refine ⟨?_, fun hns => ⟨sb, hsb, hstock hns⟩⟩
    rw [heq]
    simp only [applyAtomic]
    rw [nonSysNonneg_iff]
    intro b hb hbneq
    have hB2 : ∀ x ∈ (postProvision st a).balances ++ extra,
        x.location_code ≠ ("SYSTEM") → 0 ≤ x.quantity := by
      intro x hx hxne
      rcases List.mem_append.mp hx with hx' | hx'
      · obtain ⟨eb, heb, hpb⟩ := postProvision_balances st a
        rw [heb] at hx'
        rcases List.mem_append.mp hx' with hx'' | hx''
        · exact (nonSysNonneg_iff st.balances).mp hpre x hx'' hxne
        · rw [(hpb x hx'').2]
      · rw [(hext x hx').2]
    have hB2from :
        ((postProvision st a).balances ++ extra).find?
          (fun b => b.location_code == pyUpper a.from_location_code) = some sb :=
      find?_append_of_some _ _ _ _ hsb
    rcases mem_updFirst _ _ _ _ _ hb with hb1 | ⟨y, hy, rfl⟩
    · rcases mem_updFirst _ _ _ _ _ hb1 with hb2 | ⟨y, hy, rfl⟩
      · exact hB2 b hb2 hbneq
      · have hysb : y = sb := by
          rw [hB2from] at hy
          exact Option.some.inj hy.symm
        subst hysb
        have hcode : y.location_code = pyUpper a.from_location_code := by
          have := List.find?_some hB2from
          simpa using this
        have hfromne : pyUpper a.from_location_code ≠ ("SYSTEM") := by
          intro hcontr
          apply hbneq
          show y.location_code = ("SYSTEM")
          rw [hcode, hcontr]
        have := hstock hfromne
        show (0 : Int) ≤ y.quantity - a.quantity
        omega
    · have hymid :
          (updFirst BalanceRow.location_code
            ((postProvision st a).balances ++ extra) (pyUpper a.from_location_code)
            (fun b => recomputeAvail { b with quantity := b.quantity - a.quantity })).find?
            (fun b => b.location_code == pyUpper a.to_location_code) = some db := by
        rw [updFirst_find?_ne BalanceRow.location_code (pyUpper a.from_location_code)
          (pyUpper a.to_location_code)
          (fun b => recomputeAvail { b with quantity := b.quantity - a.quantity })
          (fun _ => rfl) (Ne.symm hne)]
        exact hdb
      have hydb : y = db := by
        rw [hymid] at hy
        exact Option.some.inj hy.symm
      subst hydb
      have hcode : y.location_code = pyUpper a.to_location_code := by
        have := List.find?_some hdb
        simpa using this
      have hymem : y ∈ (postProvision st a).balances ++ extra :=
        List.mem_of_find?_eq_some hdb
      have hyge : 0 ≤ y.quantity := by
        apply hB2 y hymem
        intro hcontr
        apply hbneq
        show y.location_code = ("SYSTEM")
        rw [hcode] at hcontr ⊢
        exact hcontr
      show (0 : Int) ≤ y.quantity + a.quantity
      omega
  · intro sb h1 h2 h3 hdest hsb hns hlt
    cases hfd : (postProvision st a).balances.find?
        (fun b => b.location_code == pyUpper a.to_location_code) with
    | some db =>
        have hE : recordMovement st a =
            { ok := false,
              msg := ("Insufficient stock at ") ++ a.from_location_code ++
                     (". Available: ") ++ toString sb.quantity,
              st := postProvision st a } := by
          have hcond : pyUpper a.from_location_code ≠ ("SYSTEM") ∧
              sb.quantity < a.quantity := ⟨hns, hlt⟩
          unfold recordMovement movePhase1 movePhase2
          simp only [if_neg h1, if_neg h2, if_neg h3, hfd, hsb]
          rw [if_pos hcond]
        rw [hE]
        exact ⟨rfl, rfl⟩
    | none =>
        have hloc : ((postProvision st a).locations.find?
            (fun l => l.code == pyUpper a.to_location_code)).isSome = true := by
          rcases hdest with hd | hd
          · rw [hfd] at hd
            simp at hd
          · exact hd
        have hE : recordMovement st a =
            { ok := false,
              msg := ("Insufficient stock at ") ++ a.from_location_code ++
                     (". Available: ") ++ toString sb.quantity,
              st := { postProvision st a with
                      balances := (postProvision st a).balances ++
                        [mkZeroBal (pyUpper a.to_location_code)] } } := by
          have hcond : pyUpper a.from_location_code ≠ ("SYSTEM") ∧
              sb.quantity < a.quantity := ⟨hns, hlt⟩
          unfold recordMovement movePhase1 movePhase2
          simp only [if_neg h1, if_neg h2, if_neg h3, hfd, if_pos hloc, hsb]
          rw [if_pos hcond]
        rw [hE]
        exact ⟨rfl, rfl⟩

theorem recordMovement_non_negativity_witness :
    nonSysNonneg stW2.balances = true ∧
    nonSysNonneg (recordMovement stW2 aW3).st.balances = true :=
  ⟨by decide, ((recordMovement_non_negativity stW2 aW3 (by decide)).1 (by decide)).1⟩

/-! ## Claim C8: `current_stock` cache mirroring -/

/-- Claim C8: after a successful `record_movement`, the source and
destination Location rows (when present) carry a `current_stock` equal to
the quantity of their balance row, including an auto-provisioned
destination balance. -/
theorem recordMovement_cache_mirror (st : DB) (a : MoveArgs)
    (hok : (recordMovement st a).ok = true) :
    (∀ l, (recordMovement st a).st.locations.find?
        (fun x => x.code == pyUpper a.from_location_code) = some l →
      ∃ b, (recordMovement st a).st.balances.find?
          (fun x => x.location_code == pyUpper a.from_location_code) = some b ∧
        l.current_stock = b.quantity) ∧
    (∀ l, (recordMovement st a).st.locations.find?
        (fun x => x.code == pyUpper a.to_location_code) = some l →
      ∃ b, (recordMovement st a).st.balances.find?
          (fun x => x.location_code == pyUpper a.to_location_code) = some b ∧
        l.current_stock = b.quantity) := by
  obtain ⟨hq, hne, extra, sb, db, hext, hsb, hdb, hdbq, hstock, heq⟩ :=
    recordMovement_ok_inv st a hok
  have hB2from :
      ((postProvision st a).balances ++ extra).find?
        (fun b => b.location_code == pyUpper a.from_location_code) = some sb :=
    find?_append_of_some _ _ _ _ hsb
  have hbalFrom : (recordMovement st a).st.balances.find?
      (fun x => x.location_code == pyUpper a.from_location_code) =
      some (recomputeAvail { sb with quantity := sb.quantity - a.quantity }) := by
    rw [heq]
    simp only [applyAtomic]
    rw [updFirst_find?_ne BalanceRow.location_code (pyUpper a.to_location_code)
      (pyUpper a.from_location_code)
      (fun b => recomputeAvail { b with quantity := b.quantity + a.quantity })
      (fun _ => rfl) hne]
    rw [updFirst_find?_eq BalanceRow.location_code (pyUpper a.from_location_code)
      (fun b => recomputeAvail { b with quantity := b.quantity - a.quantity })
      (fun _ => rfl)]
    rw [hB2from]
    rfl
  have hbalTo : (recordMovement st a).st.balances.find?
      (fun x => x.location_code == pyUpper a.to_location_code) =
      some (recomputeAvail { db with quantity := db.quantity + a.quantity }) := by
    rw [heq]
    simp only [applyAtomic]
    rw [updFirst_find?_eq BalanceRow.location_code (pyUpper a.to_location_code)
      (fun b => recomputeAvail { b with quantity := b.quantity + a.quantity })
      (fun _ => rfl)]
    rw [updFirst_find?_ne BalanceRow.location_code (pyUpper a.from_location_code)
      (pyUpper a.to_location_code)
      (fun b => recomputeAvail { b with quantity := b.quantity - a.quantity })
      (fun _ => rfl) (Ne.symm hne)]
    rw [hdb]
    rfl
  have hlocFrom : (recordMovement st a).st.locations.find?
      (fun x => x.code == pyUpper a.from_location_code) =
      ((postProvision st a).locations.find?
        (fun x => x.code == pyUpper a.from_location_code)).map
        (fun l => { l with current_stock := sb.quantity - a.quantity }) := by
    rw [heq]
    simp only [applyAtomic]
    rw [updFirst_find?_ne LocationRow.code (pyUpper a.to_location_code)
      (pyUpper a.from_location_code)
      (fun l => { l with current_stock := db.quantity + a.quantity })
      (fun _ => rfl) hne]
    rw [updFirst_find?_eq LocationRow.code (pyUpper a.from_location_code)
      (fun l => { l with current_stock := sb.quantity - a.quantity })
      (fun _ => rfl)]
  have hlocTo : (recordMovement st a).st.locations.find?
      (fun x => x.code == pyUpper a.to_location_code) =
      ((postProvision st a).locations.find?
        (fun x => x.code == pyUpper a.to_location_code)).map
        (fun l => { l with current_stock := db.quantity + a.quantity }) := by
    rw [heq]
    simp only [applyAtomic]
    rw [updFirst_find?_eq LocationRow.code (pyUpper a.to_location_code)
      (fun l => { l with current_stock := db.quantity + a.quantity })
      (fun _ => rfl)]
    rw [updFirst_find?_ne LocationRow.code (pyUpper a.from_location_code)
      (pyUpper a.to_location_code)
      (fun l => { l with current_stock := sb.quantity - a.quantity })
      (fun _ => rfl) (Ne.symm hne)]
  constructor
  · intro l hl
    rw [hlocFrom] at hl
    cases hfl : (postProvision st a).locations.find?
        (fun x => x.code == pyUpper a.from_location_code) with
    | none =>
        rw [hfl] at hl
        simp at hl
    | some l0 =>
        rw [hfl] at hl
        have hll : l = { l0 with current_stock := sb.quantity - a.quantity } :=
          (Option.some.inj hl).symm
        subst hll
        exact ⟨recomputeAvail { sb with quantity := sb.quantity - a.quantity },
          hbalFrom, rfl⟩
  · intro l hl
    rw [hlocTo] at hl
    cases hfl : (postProvision st a).locations.find?
        (fun x => x.code == pyUpper a.to_location_code) with
    | none =>
        rw [hfl] at hl
        simp at hl
    | some l0 =>
        rw [hfl] at hl
        have hll : l = { l0 with current_stock := db.quantity + a.quantity } :=
          (Option.some.inj hl).symm
        subst hll
        exact ⟨recomputeAvail { db with quantity := db.quantity + a.quantity },
          hbalTo, rfl⟩

theorem recordMovement_cache_mirror_witness :
    ∃ b, (recordMovement stW8 aW8).st.balances.find?
        (fun x => x.location_code == pyUpper aW8.to_location_code) = some b ∧
      (mkLoc ("BCD") ("Bravo") 4).current_stock = b.quantity :=
  (recordMovement_cache_mirror stW8 aW8 (by decide)).2 (mkLoc ("BCD") ("Bravo") 4)
    (by decide)

/-! ## Claim C9: deletion guard -/

/-- Claim C9: `delete_location` succeeds exactly when no movement references
the code (as source or destination); a refused deletion changes nothing,
and a successful one removes the location and its balance rows while
leaving movements, audits and reports untouched. -/
theorem delete_location_guard (st : DB) (code : String) :
    ((delete_location st code).ok = true ↔
      ∀ m ∈ st.movements,
        ¬(m.from_location_code = code ∨ m.to_location_code = code)) ∧
    ((delete_location st code).ok = false → (delete_location st code).st = st) ∧
    ((delete_location st code).ok = true →
      (delete_location st code).st.locations.find?
        (fun l => l.code == code) = none ∧
      (delete_location st code).st.balances.filter
        (fun b => b.location_code == code) = [] ∧
      (delete_location st code).st.movements = st.movements ∧
      (delete_location st code).st.audits = st.audits ∧
      (delete_location st code).st.reports = st.reports) := by
  by_cases hn : 0 < (st.movements.filter
      (fun m => m.from_location_code == code || m.to_location_code == code)).length
  · have hE : delete_location st code =
        { ok := false,
          msg := ("Cannot delete: Has ") ++
            toString (st.movements.filter
              (fun m => m.from_location_code == code ||
                m.to_location_code == code)).length ++
            (" historical movements."),
          st := st } := by
      unfold delete_location
      rw [if_pos hn]
    rw [hE]
    refine ⟨?_, fun _ => rfl, ?_⟩
    · constructor
      · intro habs
        exact absurd habs (by simp)
      · intro hall
        exfalso
        obtain ⟨m, hm⟩ := List.exists_mem_of_length_pos hn
        have hm' := List.mem_filter.mp hm
        have hpred := hm'.2
        simp only [Bool.or_eq_true, beq_iff_eq] at hpred
        exact hall m hm'.1 hpred
    · intro habs
      exact absurd habs (by simp)
  · have hE : delete_location st code =
        { ok := true,
          msg := ("Deleted successfully"),
          st := { st with
            balances := st.balances.filter (fun b => !(b.location_code == code)),
            locations := st.locations.filter (fun l => !(l.code == code)) } } := by
      unfold delete_location
      rw [if_neg hn]
    rw [hE]
    refine ⟨?_, by intro habs; exact absurd habs (by simp), fun _ => ⟨?_, ?_, rfl, rfl, rfl⟩⟩
    · constructor
      · intro _ m hm habs
        have hlen : (st.movements.filter
            (fun m => m.from_location_code == code ||
              m.to_location_code == code)).length = 0 := by omega
        have hnil := List.length_eq_zero.mp hlen
        have : m ∈ st.movements.filter
            (fun m => m.from_location_code == code || m.to_location_code == code) :=
          List.mem_filter.mpr ⟨hm, by simp only [Bool.or_eq_true, beq_iff_eq]; exact habs⟩
        rw [hnil] at this
        simp at this
      · intro _
        rfl
    · rw [List.find?_eq_none]
      intro l hl
      have := (List.mem_filter.mp hl).2
      simp only [Bool.not_eq_true'] at this
      simp [this]
    · rw [List.filter_eq_nil_iff]
      intro b hb
      have := (List.mem_filter.mp hb).2
      simp only [Bool.not_eq_true'] at this
      simp [this]

theorem delete_location_guard_witness :
    (delete_location stC9 ("ABC")).ok = false ∧
    (delete_location stC9 ("ABC")).st = stC9 ∧
    (delete_location stC9 ("BCD")).st.locations.find?
      (fun l => l.code == ("BCD")) = none :=
  ⟨by decide, (delete_location_guard stC9 ("ABC")).2.1 (by decide),
    ((delete_location_guard stC9 ("BCD")).2.2 (by decide)).1⟩

/-! ## Claim C10: empty-code rejection -/

/-- Claim C10: an empty (or missing, which Python treats identically)
source or destination code is rejected first, with the fixed message and no
state change, regardless of every other argument. -/
theorem recordMovement_empty_code (st : DB) (a : MoveArgs)
    (h : a.from_location_code = ("") ∨ a.to_location_code = ("")) :
    recordMovement st a =
      { ok := false, msg := ("Locations cannot be empty"), st := st } := by
  unfold recordMovement
  rw [if_pos h]

theorem recordMovement_empty_code_witness :
    ((mkArgs ("") ("BCD") (-3)).from_location_code = ("") ∨
      (mkArgs ("") ("BCD") (-3)).to_location_code = ("")) ∧
    recordMovement stW2 (mkArgs ("") ("BCD") (-3)) =
      { ok := false, msg := ("Locations cannot be empty"), st := stW2 } :=
  ⟨Or.inl rfl, recordMovement_empty_code stW2 (mkArgs ("") ("BCD") (-3)) (Or.inl rfl)⟩

/-! ## Claim C1: failure atomicity -/

/-- Claim C1, as stated, is false: this failing call (insufficient stock at
`ABC` moving to `SYSTEM`) leaves a state different from the initial one —
the auto-provisioned SYSTEM location survives the failed call. -/
theorem recordMovement_failed_call_leaves_system_row :
    (recordMovement stC1 aC1).ok = false ∧
    (recordMovement stC1 aC1).st ≠ stC1 ∧
    ((recordMovement stC1 aC1).st.locations.find?
      (fun l => l.code == ("SYSTEM"))).isSome = true ∧
    (stC1.locations.find? (fun l => l.code == ("SYSTEM"))).isSome = false := by
  exact ⟨by decide, by decide, by decide, by decide⟩

/-- Claim C1, amended: a failed `record_movement` call creates no Movement,
audit or report row and alters no pre-existing row; the only additions that
can survive are the auto-provisioned SYSTEM location and zero-quantity
balance rows. -/
theorem recordMovement_failure_atomicity (st : DB) (a : MoveArgs)
    (h : (recordMovement st a).ok = false) :
    (recordMovement st a).st.movements = st.movements ∧
    (recordMovement st a).st.audits = st.audits ∧
    (recordMovement st a).st.reports = st.reports ∧
    (∃ eb, (recordMovement st a).st.balances = st.balances ++ eb ∧
      ∀ b ∈ eb, b.quantity = 0) ∧
    (∃ el, (recordMovement st a).st.locations = st.locations ++ el ∧
      ∀ l ∈ el, l.code = ("SYSTEM") ∧ l.current_stock = 0) :=
  recordMovement_failure_state st a h

theorem recordMovement_failure_atomicity_witness :
    (recordMovement stC1 aC1).ok = false ∧
    ((recordMovement stC1 aC1).st.movements = stC1.movements ∧
    (recordMovement stC1 aC1).st.audits = stC1.audits ∧
    (recordMovement stC1 aC1).st.reports = stC1.reports ∧
    (∃ eb, (recordMovement stC1 aC1).st.balances = stC1.balances ++ eb ∧
      ∀ b ∈ eb, b.quantity = 0) ∧
    (∃ el, (recordMovement stC1 aC1).st.locations = stC1.locations ++ el ∧
      ∀ l ∈ el, l.code = ("SYSTEM") ∧ l.current_stock = 0)) :=
  ⟨by decide, recordMovement_failure_atomicity stC1 aC1 (by decide)⟩

/-! ## Frame lemmas for ingestion -/

theorem recordMovement_reports_frame (st : DB) (a : MoveArgs) :
    (recordMovement st a).st.reports = st.reports := by
  cases hok : (recordMovement st a).ok with
  | false => exact (recordMovement_failure_state st a hok).2.2.1
  | true =>
      obtain ⟨_, _, extra, sb, db, _, _, _, _, _, heq⟩ := recordMovement_ok_inv st a hok
      rw [heq]
      simp only [applyAtomic]
      exact (postProvision_frame st a).2.2.1

theorem processRow_reports_frame (st : DB) (pb : String) (row : Row) :
    (processRow st pb row).st.reports = st.reports := by
  unfold processRow processRowD
  split
  · split
    · rfl
    · unfold create_movement
      exact recordMovement_reports_frame _ _
  all_goals rfl

theorem ingestRows_reports_frame (pb : String) :
    ∀ (rows : List Row) (st : DB) (idx : Nat),
      (ingestRows pb st idx rows).st.reports = st.reports
  | [], _, _ => rfl
  | row :: rest, st, idx => by
      simp only [ingestRows]
      split
      · exact (ingestRows_reports_frame pb rest _ _).trans
          (processRow_reports_frame st pb row)
      · exact (ingestRows_reports_frame pb rest _ _).trans
          (processRow_reports_frame st pb row)

theorem ingest_hash_hit (st : DB) (h rn sf pb : String) (df : List Row) (r : ReportRow)
    (hf : st.reports.find? (fun x => x.file_hash == h) = some r) :
    ingest st h rn sf pb df = { report := r, st := st } := by
  unfold ingest
  rw [hf]

/-! ## Claim C7: idempotent re-ingestion -/

/-- Claim C7: re-running `ingest` with the same content hash returns the
report produced (or found) by the first run and leaves the state exactly as
the first run left it: no new movements, reports or balance changes. -/
theorem ingest_idempotent (st : DB) (h rn sf pb rn2 sf2 pb2 : String)
    (df df2 : List Row) :
    ingest (ingest st h rn sf pb df).st h rn2 sf2 pb2 df2 =
      { report := (ingest st h rn sf pb df).report,
        st := (ingest st h rn sf pb df).st } := by
  cases hf : st.reports.find? (fun x => x.file_hash == h) with
  | some r =>
      rw [ingest_hash_hit st h rn sf pb df r hf]
      exact ingest_hash_hit st h rn2 sf2 pb2 df2 r hf
  | none =>
      have hE : ingest st h rn sf pb df =
          { report := mkReport st.nextReportId rn sf h pb df.length
              (ingestRows pb { st with nextReportId := st.nextReportId + 1 } 0 df),
            st := { (ingestRows pb { st with nextReportId := st.nextReportId + 1 }
                      0 df).st with
                    reports := (ingestRows pb
                        { st with nextReportId := st.nextReportId + 1 } 0 df).st.reports ++
                      [mkReport st.nextReportId rn sf h pb df.length
                        (ingestRows pb { st with nextReportId := st.nextReportId + 1 }
                          0 df)] } } := by
        unfold ingest
        rw [hf]
      have hfind : ({ (ingestRows pb { st with nextReportId := st.nextReportId + 1 }
              0 df).st with
            reports := (ingestRows pb { st with nextReportId := st.nextReportId + 1 }
                0 df).st.reports ++
              [mkReport st.nextReportId rn sf h pb df.length
                (ingestRows pb { st with nextReportId := st.nextReportId + 1 } 0 df)] }
            : DB).reports.find? (fun x => x.file_hash == h) =
          some (mkReport st.nextReportId rn sf h pb df.length
            (ingestRows pb { st with nextReportId := st.nextReportId + 1 } 0 df)) := by
        show ((ingestRows pb { st with nextReportId := st.nextReportId + 1 }
              0 df).st.reports ++
            [mkReport st.nextReportId rn sf h pb df.length
              (ingestRows pb { st with nextReportId := st.nextReportId + 1 } 0 df)]).find?
            (fun x => x.file_hash == h) =
          some (mkReport st.nextReportId rn sf h pb df.length
            (ingestRows pb { st with nextReportId := st.nextReportId + 1 } 0 df))
        have hrep2 : (ingestRows pb { st with nextReportId := st.nextReportId + 1 }
            0 df).st.reports = st.reports :=
          ingestRows_reports_frame pb df _ 0
        rw [hrep2, find?_append_of_none _ _ _ hf]
        exact List.find?_cons_of_pos _ (by simp [mkReport])
      rw [hE]
      exact ingest_hash_hit _ h rn2 sf2 pb2 df2 _ hfind

/-! ## Claim C5: missing candidate columns -/

theorem processRowD_missing_cols (st : DB) (pb : String)
    (d : List (String × CellV)) (h : colsOk d = false) :
    processRowD st pb d =
      { ok := false,
        msg := ("Missing required columns. Found: ") ++ pyReprKeys (d.map Prod.fst),
        st := st } := by
  unfold processRowD
  split
  · exfalso
    simp_all [colsOk]
  all_goals rfl

theorem ingestRows_all_missing (pb : String) :
    ∀ (rows : List Row) (st : DB) (idx : Nat),
      (∀ row ∈ rows, colsOk (toRowDict row) = false) →
      (ingestRows pb st idx rows).st = st ∧
      (ingestRows pb st idx rows).succ = 0 ∧
      (ingestRows pb st idx rows).failed = rows.length
  | [], _, _, _ => ⟨rfl, rfl, rfl⟩
  | row :: rest, st, idx, h => by
      have hPR : processRow st pb row =
          { ok := false,
            msg := ("Missing required columns. Found: ") ++
              pyReprKeys ((toRowDict row).map Prod.fst),
            st := st } := by
        unfold processRow
        exact processRowD_missing_cols st pb (toRowDict row)
          (h row (List.mem_cons_self _ _))
      have ih := ingestRows_all_missing pb rest st (idx + 1)
        (fun r hr => h r (List.mem_cons_of_mem _ hr))
      simp only [ingestRows, hPR]
      exact ⟨ih.1, ih.2.1, by rw [ih.2.2]; simp⟩

/-- Claim C5, amended: when the ingested table never offers a candidate
column for one of the five logical fields, the run is not aborted: every
row fails individually, the run completes with `COMPLETED_WITH_ERRORS`,
the full failure counters, and no movement is created.  There is no
run-level `SchemaMismatch` failure in the code. -/
theorem ingest_missing_cols_per_row (st : DB) (h rn sf pb : String) (df : List Row)
    (hfresh : st.reports.find? (fun r => r.file_hash == h) = none)
    (hcols : ∀ row ∈ df, colsOk (toRowDict row) = false)
    (hne : df ≠ []) :
    (ingest st h rn sf pb df).report.status = ("COMPLETED_WITH_ERRORS") ∧
    (ingest st h rn sf pb df).report.total_movements = df.length ∧
    (ingest st h rn sf pb df).report.failed_movements = df.length ∧
    (ingest st h rn sf pb df).report.successful_movements = 0 ∧
    (ingest st h rn sf pb df).st.movements = st.movements := by
  have hE : ingest st h rn sf pb df =
      { report := mkReport st.nextReportId rn sf h pb df.length
          (ingestRows pb { st with nextReportId := st.nextReportId + 1 } 0 df),
        st := { (ingestRows pb { st with nextReportId := st.nextReportId + 1 }
                  0 df).st with
                reports := (ingestRows pb
                    { st with nextReportId := st.nextReportId + 1 } 0 df).st.reports ++
                  [mkReport st.nextReportId rn sf h pb df.length
                    (ingestRows pb { st with nextReportId := st.nextReportId + 1 }
                      0 df)] } } := by
    unfold ingest
    rw [hfresh]
  obtain ⟨hst, hsucc, hfail⟩ :=
    ingestRows_all_missing pb df { st with nextReportId := st.nextReportId + 1 } 0 hcols
  have hlen : df.length ≠ 0 := fun hc => hne (List.length_eq_zero.mp hc)
  rw [hE]
  refine ⟨?_, rfl, ?_, ?_, ?_⟩
  · show (if (ingestRows pb { st with nextReportId := st.nextReportId + 1 }
        0 df).failed = 0 then ("COMPLETED") else ("COMPLETED_WITH_ERRORS")) =
      ("COMPLETED_WITH_ERRORS")
    rw [hfail, if_neg hlen]
  · exact hfail
  · exact hsucc
  · show (ingestRows pb { st with nextReportId := st.nextReportId + 1 }
        0 df).st.movements = st.movements
    rw [hst]

/-- Claim C5, as stated, is false: on this concrete table, whose rows have
no candidate column for the `from` field, `ingest` does not fail the run;
it processes row by row, records per-row errors and returns a completed
report. -/
theorem ingest_missing_cols_counterexample :
    (ingest emptyDB ("h5") ("R") ("f.xlsx") ("op") dfC5).report.status =
      ("COMPLETED_WITH_ERRORS") ∧
    (ingest emptyDB ("h5") ("R") ("f.xlsx") ("op") dfC5).report.total_movements = 2 ∧
    (ingest emptyDB ("h5") ("R") ("f.xlsx") ("op") dfC5).report.failed_movements = 2 ∧
    (ingest emptyDB ("h5") ("R") ("f.xlsx") ("op") dfC5).report.successful_movements
      = 0 ∧
    (ingest emptyDB ("h5") ("R") ("f.xlsx") ("op") dfC5).report.completed = true ∧
    (ingest emptyDB ("h5") ("R") ("f.xlsx") ("op") dfC5).st.movements = [] := by
  exact ⟨by decide, by decide, by decide, by decide, by decide, by decide⟩

theorem ingest_missing_cols_per_row_witness :
    (emptyDB.reports.find? (fun r => r.file_hash == ("h5")) = none) ∧
    ((ingest emptyDB ("h5") ("R") ("f.xlsx") ("op") dfC5).report.status =
      ("COMPLETED_WITH_ERRORS") ∧
    (ingest emptyDB ("h5") ("R") ("f.xlsx") ("op") dfC5).report.total_movements
      = dfC5.length ∧
    (ingest emptyDB ("h5") ("R") ("f.xlsx") ("op") dfC5).report.failed_movements
      = dfC5.length ∧
    (ingest emptyDB ("h5") ("R") ("f.xlsx") ("op") dfC5).report.successful_movements
      = 0 ∧
    (ingest emptyDB ("h5") ("R") ("f.xlsx") ("op") dfC5).st.movements =
      emptyDB.movements) :=
  ⟨by decide, ingest_missing_cols_per_row emptyDB ("h5") ("R") ("f.xlsx") ("op") dfC5
    (by decide) (by decide) (by decide)⟩

/-! ## Claim C6: row numbering in error messages -/

theorem ingestRows_errs_shape (pb : String) :
    ∀ (rows : List Row) (st : DB) (idx : Nat) (e : String),
      e ∈ (ingestRows pb st idx rows).errs →
      ∃ n msg, n < rows.length ∧
        e = ("Row ") ++ toString (idx + n + 2) ++ (": ") ++ msg
  | [], _, _, e, he => by simp [ingestRows] at he
  | row :: rest, st, idx, e, he => by
      simp only [ingestRows] at he
      split at he
      · obtain ⟨n, msg, hn, hmsg⟩ :=
          ingestRows_errs_shape pb rest (processRow st pb row).st (idx + 1) e he
        refine ⟨n + 1, msg, by simpa using Nat.succ_lt_succ hn, ?_⟩
        rw [hmsg]
        have harith : idx + 1 + n + 2 = idx + (n + 1) + 2 := by omega
        rw [harith]
      · rcases List.mem_cons.mp he with he' | he'
        · exact ⟨0, (processRow st pb row).msg, by simp, he'⟩
        · obtain ⟨n, msg, hn, hmsg⟩ :=
            ingestRows_errs_shape pb rest (processRow st pb row).st (idx + 1) e he'
          refine ⟨n + 1, msg, by simpa using Nat.succ_lt_succ hn, ?_⟩
          rw [hmsg]
          have harith : idx + 1 + n + 2 = idx + (n + 1) + 2 := by omega
          rw [harith]

/-- Claim C6, amended: every error string recorded by the ingestion loop
names the failing row as its zero-based DataFrame index plus 2 — the row's
line number in a sheet with one header row, equivalently the one-indexed
data row number plus 1 (not plus 2 as claimed). -/
theorem ingest_row_numbering (pb : String) (st : DB) (df : List Row) (e : String)
    (he : e ∈ (ingestRows pb st 0 df).errs) :
    ∃ n msg, n < df.length ∧ e = ("Row ") ++ toString (n + 2) ++ (": ") ++ msg := by
  obtain ⟨n, msg, hn, hmsg⟩ := ingestRows_errs_shape pb df st 0 e he
  refine ⟨n, msg, hn, ?_⟩
  rw [hmsg]
  have harith : 0 + n + 2 = n + 2 := by omega
  rw [harith]

/-- Claim C6, as stated, is false: ingesting the 3-row fixture whose second
data row carries a negative quantity produces the single error string
`Row 3: Quantity must be positive` — it references row index 3, not 4, and
the run counts 2 successes and 1 failure. -/
theorem ingest_row_numbering_counterexample :
    (ingest stC6 ("h6") ("R") ("f.xlsx") ("op") dfC6).report.processing_errors =
      some (("Row 3: Quantity must be positive")) ∧
    (ingest stC6 ("h6") ("R") ("f.xlsx") ("op") dfC6).report.total_movements = 3 ∧
    (ingest stC6 ("h6") ("R") ("f.xlsx") ("op") dfC6).report.successful_movements
      = 2 ∧
    (ingest stC6 ("h6") ("R") ("f.xlsx") ("op") dfC6).report.failed_movements = 1 ∧
    strContains (("Row 3: Quantity must be positive")) (("Row 4")) = false ∧
    ((ingest stC6 ("h6") ("R") ("f.xlsx") ("op") dfC6).st.movements.map
      MovementRow.quantity) = [30, 30] := by
  exact ⟨by decide, by decide, by decide, by decide, by decide, by decide⟩

theorem ingest_row_numbering_witness :
    (("Row 3: Quantity must be positive") ∈
      (ingestRows ("op") stC6 0 dfC6).errs) ∧
    (∃ n msg, n < dfC6.length ∧
      ("Row 3: Quantity must be positive") =
        ("Row ") ++ toString (n + 2) ++ (": ") ++ msg) :=
  ⟨by decide, ingest_row_numbering ("op") stC6 dfC6
    ("Row 3: Quantity must be positive") (by decide)⟩
